import Mathlib

/-!
# Credential issuance for the MSSQL secret backend

A shallow embedding of `pathCredsCreateRead`
(`builtin/logical/mssql/path_creds_create.go`) together with the properties
of one issuance run: which collaborator calls are made, in which order, on
which handle, and what is returned to the caller.

Go strings are byte sequences, so they are modelled as lists of bytes; `len`
is the number of bytes and `s[:n]` keeps the first `n` bytes.  The
collaborators of the handler (role and lease storage, the UUID generator, the
database handle, the transaction, `SplitSQL`, `Query`, and the internal data
built by the framework's `Secret.Response`) are fields of a
`World`: each field gives the outcome the collaborator produces when the
handler calls it.  A run returns the Go result pair and the ordered list of
collaborator calls it made.
-/

namespace Mssql

/-- A Go `string`: an immutable sequence of bytes. -/
abbrev GoString := List UInt8

/-- The bytes of a string literal of the source (Go source text is UTF-8). -/
def utf8 (s : String) : GoString := s.toList.flatMap String.utf8EncodeChar

/-- A non-nil Go `error` value, identified by its message. -/
structure GoError where
  msg : GoString
  deriving DecidableEq, Repr

/-- The Go type `time.Duration`: a count of nanoseconds. -/
abbrev Duration := Int

/-- The constant `time.Hour`, in nanoseconds. -/
def Hour : Duration := 3600 * 1000000000

/-- The constant `time.Minute`, in nanoseconds. -/
def Minute : Duration := 60 * 1000000000

/-- The role entry returned by `b.Role`; the handler reads its `SQL` field. -/
structure roleEntry where
  SQL : GoString
  deriving DecidableEq, Repr

/-- The lease configuration returned by `b.Lease`; the handler reads and
writes its `Lease` field. -/
structure configLease where
  Lease : Duration
  deriving DecidableEq, Repr

/-- A Go `map[string]...` literal whose values are strings, as the list of
its key/value entries in source order. -/
abbrev GoMap := List (GoString × GoString)

/-- Modelled from the spec: the `*logical.Response` values the handler
returns, built by `logical.ErrorResponse` and by
`b.Secret(SecretCredsType).Response`, neither of which is in the sources.
`ErrorResponse text` is the value of `logical.ErrorResponse(text)`.
`SecretResponse data internal TTL` is the Secret response after the handler's
assignment `resp.Secret.TTL = TTL`: `data` is its response data, which is
the `data` argument of `Response` (the spec's `username, password` as
response data), and `internal` is the internal data stored in its Secret,
which `Response` builds from its `internal` argument (see
`World.InternalData`). -/
inductive Response where
  | ErrorResponse (text : GoString)
  | SecretResponse (data : GoMap) (internal : GoMap) (TTL : Duration)
  deriving DecidableEq, Repr

/-- The receiver of a `Prepare` call: the pooled database handle `db`
(`*sql.DB`) or the open transaction `tx` (`*sql.Tx`). -/
inductive Handle where
  | db
  | tx
  deriving DecidableEq, Repr

/-- One call to a collaborator, with the error it returned (`none` for a nil
error).  `Prepare` and `Exec` carry the handle the statement was prepared on,
the position of the statement in the loop and the statement text. -/
inductive Call where
  | Role (name : GoString) (err : Option GoError)
  | Lease (err : Option GoError)
  | GenerateUUID (err : Option GoError)
  | DB (err : Option GoError)
  | Begin (err : Option GoError)
  | Prepare (recv : Handle) (idx : Nat) (query : GoString) (err : Option GoError)
  | Exec (recv : Handle) (idx : Nat) (query : GoString) (err : Option GoError)
  | Commit (err : Option GoError)
  | Rollback (err : Option GoError)
  deriving DecidableEq, Repr

/-- The error a call returned. -/
def Call.err : Call → Option GoError
  | .Role _ e => e
  | .Lease e => e
  | .GenerateUUID e => e
  | .DB e => e
  | .Begin e => e
  | .Prepare _ _ _ e => e
  | .Exec _ _ _ e => e
  | .Commit e => e
  | .Rollback e => e

/-- Whether the call is `tx.Rollback()`. -/
def Call.isRollback : Call → Bool
  | .Rollback _ => true
  | _ => false

/-- Whether the call is `tx.Commit()`. -/
def Call.isCommit : Call → Bool
  | .Commit _ => true
  | _ => false

/-- Whether the call is a statement `Prepare` or a statement `Exec`. -/
def Call.isStatement : Call → Bool
  | .Prepare _ _ _ _ => true
  | .Exec _ _ _ _ => true
  | _ => false

/-- The collaborators of one run of the handler.  Each field is what the
collaborator answers when called: `GenerateUUID n` is the answer to the
`n`-th call of `uuid.GenerateUUID` (counting from 0), `Prepare i q` and
`Exec i q` are the errors of preparing and executing statement text `q` in
loop iteration `i`.  `defaultDb` is the backend field `b.defaultDb`;
`SplitSQL` and `Query` are the package helpers of the same names.
`InternalData m` is the internal data that
`b.Secret(SecretCredsType).Response(data, m)` stores in the Secret it
returns when it is passed `m` as its `internal` argument. -/
structure World where
  Role : GoString → Except GoError (Option roleEntry)
  Lease : Except GoError (Option configLease)
  GenerateUUID : Nat → Except GoError GoString
  DB : Option GoError
  Begin : Option GoError
  Prepare : Nat → GoString → Option GoError
  Exec : Nat → GoString → Option GoError
  Commit : Option GoError
  Rollback : Option GoError
  defaultDb : GoString
  SplitSQL : GoString → List GoString
  Query : GoString → GoMap → GoString
  InternalData : GoMap → GoMap

/-- The inputs the handler reads from its arguments: `data.Get("name")` and
`req.DisplayName`. -/
structure Request where
  name : GoString
  DisplayName : GoString

/-- The outcome of one run: the returned `(*logical.Response, error)` pair and
the collaborator calls made, oldest first. -/
structure Run where
  resp : Option Response
  err : Option GoError
  calls : List Call
  deriving DecidableEq, Repr

/-- The map literal passed to `Query` in every loop iteration. -/
def queryData (username password : GoString) : GoMap :=
  [(utf8 "name", username), (utf8 "password", password)]

/-- The body of `for _, query := range SplitSQL(roleSQL)`, started at
iteration `i` on the remaining queries: the calls made and the error that
ended the loop early, if any.  Statements are prepared on `db`. -/
def execLoop (w : World) (username password : GoString) :
    Nat → List GoString → List Call × Option GoError
  | _, [] => ([], none)
  | i, query :: rest =>
    let text := w.Query query (queryData username password)
    match w.Prepare i text with
    | some err => ([Call.Prepare Handle.db i text (some err)], some err)
    | none =>
      match w.Exec i text with
      | some err =>
        ([Call.Prepare Handle.db i text none, Call.Exec Handle.db i text (some err)], some err)
      | none =>
        let r := execLoop w username password (i + 1) rest
        (Call.Prepare Handle.db i text none :: Call.Exec Handle.db i text none :: r.1, r.2)

/-- The local `lease` after `if lease == nil { lease = &configLease{Lease: 1 * time.Hour} }`,
from the value `b.Lease` returned. -/
def lease (stored : Option configLease) : configLease :=
  match stored with
  | some l => l
  | none => { Lease := 1 * Hour }

/-- The local `displayName` after `if len(displayName) > 10 { displayName = displayName[:10] }`. -/
def displayName (req : Request) : GoString :=
  if req.DisplayName.length > 10 then req.DisplayName.take 10 else req.DisplayName

/-- The local `username`: `fmt.Sprintf("%s-%s", displayName, userUUID)`. -/
def username (req : Request) (userUUID : GoString) : GoString :=
  displayName req ++ utf8 "-" ++ userUUID

/-- The local `roleSQL`: `fmt.Sprintf("USE [%s]; %s", b.defaultDb, role.SQL)`. -/
def roleSQL (w : World) (role : roleEntry) : GoString :=
  utf8 "USE [" ++ w.defaultDb ++ utf8 "]; " ++ role.SQL

/-- The calls made up to and including a successful `db.Begin()`. -/
def opened (name : GoString) : List Call :=
  [Call.Role name none, Call.Lease none, Call.GenerateUUID none, Call.GenerateUUID none,
   Call.DB none, Call.Begin none]

/-- The handler `(b *backend) pathCredsCreateRead`.  Every `return` after
`defer tx.Rollback()` ends with the deferred `Rollback` call, whose result
is discarded. -/
def pathCredsCreateRead (w : World) (req : Request) : Run :=
  let name := req.name
  match w.Role name with
  | .error err => ⟨none, some err, [Call.Role name (some err)]⟩
  | .ok none =>
    ⟨some (Response.ErrorResponse (utf8 "unknown role: " ++ name)), none, [Call.Role name none]⟩
  | .ok (some role) =>
  match w.Lease with
  | .error err => ⟨none, some err, [Call.Role name none, Call.Lease (some err)]⟩
  | .ok stored =>
  match w.GenerateUUID 0 with
  | .error err =>
    ⟨none, some err, [Call.Role name none, Call.Lease none, Call.GenerateUUID (some err)]⟩
  | .ok userUUID =>
  match w.GenerateUUID 1 with
  | .error err =>
    ⟨none, some err,
      [Call.Role name none, Call.Lease none, Call.GenerateUUID none,
       Call.GenerateUUID (some err)]⟩
  | .ok password =>
  match w.DB with
  | some err =>
    ⟨none, some err,
      [Call.Role name none, Call.Lease none, Call.GenerateUUID none, Call.GenerateUUID none,
       Call.DB (some err)]⟩
  | none =>
  match w.Begin with
  | some err =>
    ⟨none, some err,
      [Call.Role name none, Call.Lease none, Call.GenerateUUID none, Call.GenerateUUID none,
       Call.DB none, Call.Begin (some err)]⟩
  | none =>
  let loop := execLoop w (username req userUUID) password 0 (w.SplitSQL (roleSQL w role))
  match loop.2 with
  | some err => ⟨none, some err, opened name ++ loop.1 ++ [Call.Rollback w.Rollback]⟩
  | none =>
  match w.Commit with
  | some err =>
    ⟨none, some err, opened name ++ loop.1 ++ [Call.Commit (some err), Call.Rollback w.Rollback]⟩
  | none =>
    ⟨some (Response.SecretResponse
        [(utf8 "username", username req userUUID), (utf8 "password", password)]
        (w.InternalData [(utf8 "username", username req userUUID)])
        (lease stored).Lease),
      none, opened name ++ loop.1 ++ [Call.Commit none, Call.Rollback w.Rollback]⟩

/-! ## Observations on a run -/

/-- The statement texts `Prepare` was called on, in call order. -/
def preparedQueries (cs : List Call) : List GoString :=
  cs.filterMap fun c =>
    match c with
    | Call.Prepare _ _ q _ => some q
    | _ => none

/-- The statement texts `Exec` was called on, in call order. -/
def executedQueries (cs : List Call) : List GoString :=
  cs.filterMap fun c =>
    match c with
    | Call.Exec _ _ q _ => some q
    | _ => none

/-- The calls that returned a nil error. -/
def succeeded (cs : List Call) : List Call :=
  cs.filter fun c => c.err.isNone

/-- Whether `tx.Commit()` was called. -/
def commitIssued (cs : List Call) : Bool :=
  cs.any Call.isCommit

/-- How many times `tx.Rollback()` was called. -/
def rollbackCount (cs : List Call) : Nat :=
  cs.countP Call.isRollback

/-- The statement list the claims describe: `Query` with the mapping
`name -> username`, `password -> password` applied to each element of
`SplitSQL("USE [" + defaultDb + "]; " + role.SQL)`. -/
def renderedStatements (w : World) (role : roleEntry) (user pass : GoString) : List GoString :=
  (w.SplitSQL (utf8 "USE [" ++ w.defaultDb ++ utf8 "]; " ++ role.SQL)).map
    fun q => w.Query q [(utf8 "name", user), (utf8 "password", pass)]

/-- The split-and-rendered sequence of a run, from what the collaborators
answer: the rendered statements of the role found, with the username and
password built from the two tokens; empty when the role or a token is not
obtained. -/
def plannedStatements (w : World) (req : Request) : List GoString :=
  match w.Role req.name, w.GenerateUUID 0, w.GenerateUUID 1 with
  | .ok (some role), .ok userUUID, .ok password =>
    renderedStatements w role (username req userUUID) password
  | _, _, _ => []

/-- The hint as the claims truncate it: its first `n` characters, the whole
hint when it has at most `n`. -/
def firstChars (n : Nat) (hint : String) : String :=
  String.mk (hint.toList.take n)

/-- The calls of loop iterations that all succeed, for statement texts
`qs`, the first one at iteration `i`. -/
def okCalls : Nat → List GoString → List Call
  | _, [] => []
  | i, q :: qs =>
    Call.Prepare Handle.db i q none :: Call.Exec Handle.db i q none :: okCalls (i + 1) qs

/-! ## The shapes of a loop and of a run -/

/-- How a run of the loop over statement texts `stmts` from iteration `i`
can end: all iterations succeed, or the first failure is a `Prepare`, or the
first failure is an `Exec`; `pre` are the statements before the failing one. -/
def LoopShape (i : Nat) (stmts : List GoString) (calls : List Call) (r : Option GoError) : Prop :=
  (r = none ∧ calls = okCalls i stmts) ∨
  (∃ pre q post e, stmts = pre ++ q :: post ∧ r = some e ∧
    calls = okCalls i pre ++ [Call.Prepare Handle.db (i + pre.length) q (some e)]) ∨
  (∃ pre q post e, stmts = pre ++ q :: post ∧ r = some e ∧
    calls = okCalls i pre ++
      [Call.Prepare Handle.db (i + pre.length) q none,
       Call.Exec Handle.db (i + pre.length) q (some e)])

/-- The exits of the handler, one constructor per `return`, each with what
the collaborators answered on the way and the run it produces. -/
inductive RunCase (w : World) (req : Request) : Run → Prop where
  | roleErr (e : GoError) (hRole : w.Role req.name = .error e) :
      RunCase w req ⟨none, some e, [Call.Role req.name (some e)]⟩
  | unknownRole (hRole : w.Role req.name = .ok none) :
      RunCase w req
        ⟨some (Response.ErrorResponse (utf8 "unknown role: " ++ req.name)), none,
          [Call.Role req.name none]⟩
  | leaseErr (role : roleEntry) (e : GoError) (hRole : w.Role req.name = .ok (some role))
      (hLease : w.Lease = .error e) :
      RunCase w req ⟨none, some e, [Call.Role req.name none, Call.Lease (some e)]⟩
  | userErr (role : roleEntry) (stored : Option configLease) (e : GoError)
      (hRole : w.Role req.name = .ok (some role)) (hLease : w.Lease = .ok stored)
      (hUser : w.GenerateUUID 0 = .error e) :
      RunCase w req
        ⟨none, some e, [Call.Role req.name none, Call.Lease none, Call.GenerateUUID (some e)]⟩
  | passErr (role : roleEntry) (stored : Option configLease) (userUUID : GoString) (e : GoError)
      (hRole : w.Role req.name = .ok (some role)) (hLease : w.Lease = .ok stored)
      (hUser : w.GenerateUUID 0 = .ok userUUID) (hPass : w.GenerateUUID 1 = .error e) :
      RunCase w req
        ⟨none, some e,
          [Call.Role req.name none, Call.Lease none, Call.GenerateUUID none,
           Call.GenerateUUID (some e)]⟩
  | dbErr (role : roleEntry) (stored : Option configLease) (userUUID password : GoString)
      (e : GoError)
      (hRole : w.Role req.name = .ok (some role)) (hLease : w.Lease = .ok stored)
      (hUser : w.GenerateUUID 0 = .ok userUUID) (hPass : w.GenerateUUID 1 = .ok password)
      (hDB : w.DB = some e) :
      RunCase w req
        ⟨none, some e,
          [Call.Role req.name none, Call.Lease none, Call.GenerateUUID none,
           Call.GenerateUUID none, Call.DB (some e)]⟩
  | beginErr (role : roleEntry) (stored : Option configLease) (userUUID password : GoString)
      (e : GoError)
      (hRole : w.Role req.name = .ok (some role)) (hLease : w.Lease = .ok stored)
      (hUser : w.GenerateUUID 0 = .ok userUUID) (hPass : w.GenerateUUID 1 = .ok password)
      (hDB : w.DB = none) (hBegin : w.Begin = some e) :
      RunCase w req
        ⟨none, some e,
          [Call.Role req.name none, Call.Lease none, Call.GenerateUUID none,
           Call.GenerateUUID none, Call.DB none, Call.Begin (some e)]⟩
  | prepareErr (role : roleEntry) (stored : Option configLease) (userUUID password : GoString)
      (pre : List GoString) (q : GoString) (post : List GoString) (e : GoError)
      (hRole : w.Role req.name = .ok (some role)) (hLease : w.Lease = .ok stored)
      (hUser : w.GenerateUUID 0 = .ok userUUID) (hPass : w.GenerateUUID 1 = .ok password)
      (hDB : w.DB = none) (hBegin : w.Begin = none)
      (hStmts : renderedStatements w role (username req userUUID) password = pre ++ q :: post) :
      RunCase w req
        ⟨none, some e,
          opened req.name ++
            (okCalls 0 pre ++ [Call.Prepare Handle.db (0 + pre.length) q (some e)]) ++
            [Call.Rollback w.Rollback]⟩
  | execErr (role : roleEntry) (stored : Option configLease) (userUUID password : GoString)
      (pre : List GoString) (q : GoString) (post : List GoString) (e : GoError)
      (hRole : w.Role req.name = .ok (some role)) (hLease : w.Lease = .ok stored)
      (hUser : w.GenerateUUID 0 = .ok userUUID) (hPass : w.GenerateUUID 1 = .ok password)
      (hDB : w.DB = none) (hBegin : w.Begin = none)
      (hStmts : renderedStatements w role (username req userUUID) password = pre ++ q :: post) :
      RunCase w req
        ⟨none, some e,
          opened req.name ++
            (okCalls 0 pre ++
              [Call.Prepare Handle.db (0 + pre.length) q none,
               Call.Exec Handle.db (0 + pre.length) q (some e)]) ++
            [Call.Rollback w.Rollback]⟩
  | commitErr (role : roleEntry) (stored : Option configLease) (userUUID password : GoString)
      (e : GoError)
      (hRole : w.Role req.name = .ok (some role)) (hLease : w.Lease = .ok stored)
      (hUser : w.GenerateUUID 0 = .ok userUUID) (hPass : w.GenerateUUID 1 = .ok password)
      (hDB : w.DB = none) (hBegin : w.Begin = none) (hCommit : w.Commit = some e) :
      RunCase w req
        ⟨none, some e,
          opened req.name ++
            okCalls 0 (renderedStatements w role (username req userUUID) password) ++
            [Call.Commit (some e), Call.Rollback w.Rollback]⟩
  | issued (role : roleEntry) (stored : Option configLease) (userUUID password : GoString)
      (hRole : w.Role req.name = .ok (some role)) (hLease : w.Lease = .ok stored)
      (hUser : w.GenerateUUID 0 = .ok userUUID) (hPass : w.GenerateUUID 1 = .ok password)
      (hDB : w.DB = none) (hBegin : w.Begin = none) (hCommit : w.Commit = none) :
      RunCase w req
        ⟨some (Response.SecretResponse
            [(utf8 "username", username req userUUID), (utf8 "password", password)]
            (w.InternalData [(utf8 "username", username req userUUID)])
            (lease stored).Lease),
          none,
          opened req.name ++
            okCalls 0 (renderedStatements w role (username req userUUID) password) ++
            [Call.Commit none, Call.Rollback w.Rollback]⟩

/-! ## The database behind the handle

The driver contract of `database/sql`: a statement prepared on the pooled
handle `db` executes outside any transaction and takes effect at once; a
statement prepared on `tx` takes effect only when `tx` commits, and is
discarded when `tx` rolls back. -/

/-- The database as the calls act on it: the statements whose effects are
in the database, and the statements held by the open transaction. -/
structure Database where
  applied : List GoString
  held : List GoString
  txOpen : Bool
  deriving DecidableEq, Repr

/-- The effect of one call on the database. -/
def Database.step (d : Database) : Call → Database
  | Call.Begin none => { d with held := [], txOpen := true }
  | Call.Exec Handle.db _ q none => { d with applied := d.applied ++ [q] }
  | Call.Exec Handle.tx _ q none => if d.txOpen then { d with held := d.held ++ [q] } else d
  | Call.Commit none =>
    if d.txOpen then { applied := d.applied ++ d.held, held := [], txOpen := false } else d
  | Call.Rollback _ => { d with held := [], txOpen := false }
  | _ => d

/-- The database after a sequence of calls. -/
def Database.after (d : Database) (cs : List Call) : Database :=
  cs.foldl Database.step d

/-- A database in which no statement has taken effect and no transaction is open. -/
def Database.empty : Database := ⟨[], [], false⟩

/-! ## Sample collaborators for concrete runs -/

/-- Removes the blanks at both ends of a string. -/
def trimBlanks (s : GoString) : GoString :=
  ((s.dropWhile fun c => c == 32).reverse.dropWhile fun c => c == 32).reverse

/-- The pieces of a string between occurrences of the byte `sep`. -/
def pieces (sep : UInt8) : GoString → List GoString
  | [] => [[]]
  | c :: cs =>
    if c = sep then [] :: pieces sep cs
    else
      match pieces sep cs with
      | [] => [[c]]
      | p :: ps => (c :: p) :: ps

/-- A sample `SplitSQL`: cuts at every `;`, trims each piece and drops the
empty ones. -/
def sampleSplitSQL (sql : GoString) : List GoString :=
  ((pieces 59 sql).map trimBlanks).filter fun p => !p.isEmpty

/-- Replaces every occurrence of the non-empty `pat` by `rep`, scanning
left to right; `fuel` bounds the number of scan steps. -/
def replaceAll (pat rep : GoString) : Nat → GoString → GoString
  | 0, s => s
  | _ + 1, [] => []
  | fuel + 1, c :: cs =>
    if (c :: cs).take pat.length = pat then
      rep ++ replaceAll pat rep fuel ((c :: cs).drop pat.length)
    else c :: replaceAll pat rep fuel cs

/-- A sample `Query`: replaces each key of the map, wrapped in double braces,
by its value. -/
def sampleQuery (tpl : GoString) (data : GoMap) : GoString :=
  data.foldl (fun t kv => replaceAll (utf8 "\x7b\x7b" ++ kv.1 ++ utf8 "\x7d\x7d") kv.2 t.length t) tpl

/-- A sample `InternalData`: keeps the entries it is passed and adds the
entry `secret_type` with the type of the secret, `creds`. -/
def sampleInternalData (internal : GoMap) : GoMap :=
  internal ++ [(utf8 "secret_type", utf8 "creds")]

/-- A role of two statements: create a login, grant it a permission. -/
def sampleRole : roleEntry :=
  ⟨utf8 "CREATE LOGIN [\x7b\x7bname\x7d\x7d] WITH PASSWORD = '\x7b\x7bpassword\x7d\x7d'; GRANT SELECT TO [\x7b\x7bname\x7d\x7d];"⟩

/-- A world with one role, `readonly`, a stored lease of 30 minutes, and
collaborators that all succeed. -/
def sampleWorld : World where
  Role := fun name => if name = utf8 "readonly" then .ok (some sampleRole) else .ok none
  Lease := .ok (some ⟨30 * Minute⟩)
  GenerateUUID := fun n => .ok (if n = 0 then utf8 "6ba7b810-9dad" else utf8 "9e107d9d-372b")
  DB := none
  Begin := none
  Prepare := fun _ _ => none
  Exec := fun _ _ => none
  Commit := none
  Rollback := some ⟨utf8 "sql: transaction has already been committed or rolled back"⟩
  defaultDb := utf8 "master"
  SplitSQL := sampleSplitSQL
  Query := sampleQuery
  InternalData := sampleInternalData

/-- A request for the role `readonly` from a caller displayed as `token-alice-admin`. -/
def sampleRequest : Request := ⟨utf8 "readonly", utf8 "token-alice-admin"⟩

/-- The error a failing statement returns in the sample runs. -/
def stmtError : GoError := ⟨utf8 "mssql: permission denied"⟩

/-- The sample world without a stored lease configuration. -/
def noLeaseWorld : World := { sampleWorld with Lease := .ok none }

/-- The sample world in which executing the statement at position `k` fails. -/
def execFailsAt (k : Nat) : World :=
  { sampleWorld with Exec := fun i _ => if i = k then some stmtError else none }

/-- The three rendered statements of the sample run. -/
def sampleStatements : List GoString :=
  [utf8 "USE [master]",
   utf8 "CREATE LOGIN [token-alic-6ba7b810-9dad] WITH PASSWORD = '9e107d9d-372b'",
   utf8 "GRANT SELECT TO [token-alic-6ba7b810-9dad]"]

/-- The response data of the sample run. -/
def sampleData : GoMap :=
  [(utf8 "username", utf8 "token-alic-6ba7b810-9dad"), (utf8 "password", utf8 "9e107d9d-372b")]

/-- The internal data of the Secret of the sample run. -/
def sampleInternal : GoMap :=
  [(utf8 "username", utf8 "token-alic-6ba7b810-9dad"), (utf8 "secret_type", utf8 "creds")]

set_option maxRecDepth 100000

/-! ## The statement loop -/

/-- The loop ends in one of the three ways of `LoopShape`. -/
theorem execLoop_shape (w : World) (u p : GoString) (qs : List GoString) (i : Nat) :
    LoopShape i (qs.map fun q => w.Query q (queryData u p))
      (execLoop w u p i qs).1 (execLoop w u p i qs).2 := by
  induction qs generalizing i with
  | nil => exact Or.inl ⟨rfl, rfl⟩
  | cons query rest ih =>
    simp only [List.map_cons, execLoop]
    cases hp : w.Prepare i (w.Query query (queryData u p)) with
    | some e =>
      exact Or.inr (Or.inl ⟨[], _, _, e, rfl, rfl, by simp [okCalls]⟩)
    | none =>
      cases hx : w.Exec i (w.Query query (queryData u p)) with
      | some e =>
        exact Or.inr (Or.inr ⟨[], _, _, e, rfl, rfl, by simp [okCalls]⟩)
      | none =>
        rcases ih (i + 1) with ⟨h1, h2⟩ | ⟨pre, q, post, e, h1, h2, h3⟩ |
          ⟨pre, q, post, e, h1, h2, h3⟩
        · exact Or.inl ⟨h1, by simp [okCalls, h2]⟩
        · refine Or.inr (Or.inl ⟨w.Query query (queryData u p) :: pre, q, post, e, by simp [h1], h2, ?_⟩)
          simp [okCalls, h3, Nat.add_assoc, Nat.add_comm 1]
        · refine Or.inr (Or.inr ⟨w.Query query (queryData u p) :: pre, q, post, e, by simp [h1], h2, ?_⟩)
          simp [okCalls, h3, Nat.add_assoc, Nat.add_comm 1]

theorem okCalls_err (i : Nat) (qs : List GoString) : ∀ c ∈ okCalls i qs, c.err = none := by
  induction qs generalizing i with
  | nil => simp [okCalls]
  | cons q qs ih =>
    intro c hc
    simp only [okCalls, List.mem_cons] at hc
    rcases hc with rfl | rfl | hc
    · rfl
    · rfl
    · exact ih _ c hc

theorem okCalls_isStatement (i : Nat) (qs : List GoString) :
    ∀ c ∈ okCalls i qs, c.isStatement = true := by
  induction qs generalizing i with
  | nil => simp [okCalls]
  | cons q qs ih =>
    intro c hc
    simp only [okCalls, List.mem_cons] at hc
    rcases hc with rfl | rfl | hc
    · rfl
    · rfl
    · exact ih _ c hc

theorem preparedQueries_okCalls (i : Nat) (qs : List GoString) :
    preparedQueries (okCalls i qs) = qs := by
  induction qs generalizing i with
  | nil => rfl
  | cons q qs ih =>
    have := ih (i + 1)
    simp only [preparedQueries] at this
    simp [okCalls, preparedQueries, this]

theorem executedQueries_okCalls (i : Nat) (qs : List GoString) :
    executedQueries (okCalls i qs) = qs := by
  induction qs generalizing i with
  | nil => rfl
  | cons q qs ih =>
    have := ih (i + 1)
    simp only [executedQueries] at this
    simp [okCalls, executedQueries, this]

theorem succeeded_okCalls (i : Nat) (qs : List GoString) :
    succeeded (okCalls i qs) = okCalls i qs := by
  simp only [succeeded, List.filter_eq_self]
  intro c hc
  simp [okCalls_err i qs c hc]

theorem commitIssued_okCalls (i : Nat) (qs : List GoString) :
    commitIssued (okCalls i qs) = false := by
  induction qs generalizing i with
  | nil => rfl
  | cons q qs ih =>
    have := ih (i + 1)
    simp only [commitIssued] at this
    simp [okCalls, commitIssued, Call.isCommit, this]

theorem rollbackCount_okCalls (i : Nat) (qs : List GoString) :
    rollbackCount (okCalls i qs) = 0 := by
  induction qs generalizing i with
  | nil => rfl
  | cons q qs ih =>
    have := ih (i + 1)
    simp only [rollbackCount] at this
    simp [okCalls, rollbackCount, Call.isRollback, this]

/-! ## Every run ends in one of the listed ways -/

theorem renderedStatements_eq (w : World) (role : roleEntry) (u p : GoString) :
    renderedStatements w role u p =
      (w.SplitSQL (roleSQL w role)).map fun q => w.Query q (queryData u p) := rfl

/-- Every run of the handler ends in one of the listed ways. -/
theorem runCase (w : World) (req : Request) : RunCase w req (pathCredsCreateRead w req) := by
  cases hRole : w.Role req.name with
  | error e =>
    simp only [pathCredsCreateRead, hRole]
    exact RunCase.roleErr e hRole
  | ok found =>
  cases found with
  | none =>
    simp only [pathCredsCreateRead, hRole]
    exact RunCase.unknownRole hRole
  | some role =>
  cases hLease : w.Lease with
  | error e =>
    simp only [pathCredsCreateRead, hRole, hLease]
    exact RunCase.leaseErr role e hRole hLease
  | ok stored =>
  cases hUser : w.GenerateUUID 0 with
  | error e =>
    simp only [pathCredsCreateRead, hRole, hLease, hUser]
    exact RunCase.userErr role stored e hRole hLease hUser
  | ok userUUID =>
  cases hPass : w.GenerateUUID 1 with
  | error e =>
    simp only [pathCredsCreateRead, hRole, hLease, hUser, hPass]
    exact RunCase.passErr role stored userUUID e hRole hLease hUser hPass
  | ok password =>
  cases hDB : w.DB with
  | some e =>
    simp only [pathCredsCreateRead, hRole, hLease, hUser, hPass, hDB]
    exact RunCase.dbErr role stored userUUID password e hRole hLease hUser hPass hDB
  | none =>
  cases hBegin : w.Begin with
  | some e =>
    simp only [pathCredsCreateRead, hRole, hLease, hUser, hPass, hDB, hBegin]
    exact RunCase.beginErr role stored userUUID password e hRole hLease hUser hPass hDB hBegin
  | none =>
  have hs := execLoop_shape w (username req userUUID) password (w.SplitSQL (roleSQL w role)) 0
  rw [← renderedStatements_eq] at hs
  rcases hs with ⟨h1, h2⟩ | ⟨pre, q, post, e, h1, h2, h3⟩ | ⟨pre, q, post, e, h1, h2, h3⟩
  · cases hCommit : w.Commit with
    | some e =>
      simp only [pathCredsCreateRead, hRole, hLease, hUser, hPass, hDB, hBegin, h1, h2, hCommit]
      exact RunCase.commitErr role stored userUUID password e hRole hLease hUser hPass hDB
        hBegin hCommit
    | none =>
      simp only [pathCredsCreateRead, hRole, hLease, hUser, hPass, hDB, hBegin, h1, h2, hCommit]
      exact RunCase.issued role stored userUUID password hRole hLease hUser hPass hDB hBegin
        hCommit
  · simp only [pathCredsCreateRead, hRole, hLease, hUser, hPass, hDB, hBegin, h2, h3]
    exact RunCase.prepareErr role stored userUUID password pre q post e hRole hLease hUser hPass
      hDB hBegin h1
  · simp only [pathCredsCreateRead, hRole, hLease, hUser, hPass, hDB, hBegin, h2, h3]
    exact RunCase.execErr role stored userUUID password pre q post e hRole hLease hUser hPass
      hDB hBegin h1

theorem preparedQueries_append (a b : List Call) :
    preparedQueries (a ++ b) = preparedQueries a ++ preparedQueries b := by
  simp [preparedQueries]

theorem executedQueries_append (a b : List Call) :
    executedQueries (a ++ b) = executedQueries a ++ executedQueries b := by
  simp [executedQueries]

theorem succeeded_append (a b : List Call) : succeeded (a ++ b) = succeeded a ++ succeeded b := by
  simp [succeeded]

theorem commitIssued_append (a b : List Call) :
    commitIssued (a ++ b) = (commitIssued a || commitIssued b) := by
  simp [commitIssued]

theorem rollbackCount_append (a b : List Call) :
    rollbackCount (a ++ b) = rollbackCount a + rollbackCount b := by
  simp [rollbackCount]

theorem plannedStatements_eq (w : World) (req : Request) (role : roleEntry)
    (userUUID password : GoString) (hRole : w.Role req.name = .ok (some role))
    (hUser : w.GenerateUUID 0 = .ok userUUID) (hPass : w.GenerateUUID 1 = .ok password) :
    plannedStatements w req = renderedStatements w role (username req userUUID) password := by
  simp only [plannedStatements, hRole, hUser, hPass]

/-- The calls of the sample run, in order: the six calls up to `Begin`, a
`Prepare` and an `Exec` on `db` for each of the three statements, `Commit`,
and the deferred `Rollback`. -/
theorem sample_run_calls :
    (pathCredsCreateRead sampleWorld sampleRequest).calls =
      opened (utf8 "readonly") ++ okCalls 0 sampleStatements ++
        [Call.Commit none, Call.Rollback sampleWorld.Rollback] := by
  decide

theorem statements_ok_of_all_ok (name : GoString) (qs : List GoString) (rest : List Call)
    (hrest : ∀ c ∈ rest, c.isStatement = false) :
    ∀ c ∈ opened name ++ okCalls 0 qs ++ rest, c.isStatement = true → c.err = none := by
  intro c hc hs
  simp only [List.mem_append] at hc
  rcases hc with (hc | hc) | hc
  · simp only [opened, List.mem_cons, List.mem_singleton] at hc
    rcases hc with rfl | rfl | rfl | rfl | rfl | rfl | hc
    all_goals first | rfl | simp at hc
  · exact okCalls_err 0 qs c hc
  · rw [hrest c hc] at hs
    exact absurd hs (by decide)

/-- C3: `Commit` is issued exactly when `Begin` succeeded and every statement
of the split-and-rendered sequence was prepared and executed without error;
a run with a failing `Prepare` or `Exec` issues no `Commit`. -/
theorem commit_iff_all_statements_succeeded (w : World) (req : Request) :
    (commitIssued (pathCredsCreateRead w req).calls = true ↔
      Call.Begin none ∈ (pathCredsCreateRead w req).calls ∧
      preparedQueries (succeeded (pathCredsCreateRead w req).calls) = plannedStatements w req ∧
      executedQueries (succeeded (pathCredsCreateRead w req).calls) = plannedStatements w req) ∧
    ((∃ c ∈ (pathCredsCreateRead w req).calls, c.isStatement = true ∧ c.err ≠ none) →
      commitIssued (pathCredsCreateRead w req).calls = false) := by
  have h := runCase w req
  generalize pathCredsCreateRead w req = R at h
  cases h with
  | roleErr e hRole => simp [commitIssued, Call.isCommit, Call.isStatement]
  | unknownRole hRole => simp [commitIssued, Call.isCommit, Call.isStatement]
  | leaseErr role e hRole hLease => simp [commitIssued, Call.isCommit, Call.isStatement]
  | userErr role stored e hRole hLease hUser => simp [commitIssued, Call.isCommit, Call.isStatement]
  | passErr role stored userUUID e hRole hLease hUser hPass =>
    simp [commitIssued, Call.isCommit, Call.isStatement]
  | dbErr role stored userUUID password e hRole hLease hUser hPass hDB =>
    simp [commitIssued, Call.isCommit, Call.isStatement]
  | beginErr role stored userUUID password e hRole hLease hUser hPass hDB hBegin =>
    simp [commitIssued, Call.isCommit, Call.isStatement]
  | prepareErr role stored userUUID password pre q post e hRole hLease hUser hPass hDB hBegin
      hStmts =>
    simp only [succeeded_append, preparedQueries_append, executedQueries_append,
      commitIssued_append, succeeded_okCalls, preparedQueries_okCalls, executedQueries_okCalls,
      commitIssued_okCalls]
    cases hRb : w.Rollback <;> simp [opened, succeeded, preparedQueries, executedQueries, commitIssued, Call.isCommit,
      Call.err, Call.isStatement,
      plannedStatements_eq w req role userUUID password hRole hUser hPass, hStmts]
  | execErr role stored userUUID password pre q post e hRole hLease hUser hPass hDB hBegin
      hStmts =>
    simp only [succeeded_append, preparedQueries_append, executedQueries_append,
      commitIssued_append, succeeded_okCalls, preparedQueries_okCalls, executedQueries_okCalls,
      commitIssued_okCalls]
    cases hRb : w.Rollback <;> simp [opened, succeeded, preparedQueries, executedQueries, commitIssued, Call.isCommit,
      Call.err, Call.isStatement,
      plannedStatements_eq w req role userUUID password hRole hUser hPass, hStmts]
  | commitErr role stored userUUID password e hRole hLease hUser hPass hDB hBegin hCommit =>
    refine ⟨?_, ?_⟩
    · simp only [succeeded_append, preparedQueries_append, executedQueries_append,
        commitIssued_append, succeeded_okCalls, preparedQueries_okCalls,
        executedQueries_okCalls, commitIssued_okCalls]
      cases hRb : w.Rollback <;>
        simp [opened, succeeded, preparedQueries, executedQueries, commitIssued, Call.isCommit,
          Call.err, plannedStatements_eq w req role userUUID password hRole hUser hPass]
    · rintro ⟨c, hc, hs, he⟩
      refine absurd (statements_ok_of_all_ok req.name _ _ ?_ c hc hs) he
      intro d hd
      simp only [List.mem_cons, List.mem_singleton] at hd
      rcases hd with rfl | rfl | hd
      all_goals first | rfl | simp at hd
  | issued role stored userUUID password hRole hLease hUser hPass hDB hBegin hCommit =>
    refine ⟨?_, ?_⟩
    · simp only [succeeded_append, preparedQueries_append, executedQueries_append,
        commitIssued_append, succeeded_okCalls, preparedQueries_okCalls,
        executedQueries_okCalls, commitIssued_okCalls]
      cases hRb : w.Rollback <;>
        simp [opened, succeeded, preparedQueries, executedQueries, commitIssued, Call.isCommit,
          Call.err, plannedStatements_eq w req role userUUID password hRole hUser hPass]
    · rintro ⟨c, hc, hs, he⟩
      refine absurd (statements_ok_of_all_ok req.name _ _ ?_ c hc hs) he
      intro d hd
      simp only [List.mem_cons, List.mem_singleton] at hd
      rcases hd with rfl | rfl | hd
      all_goals first | rfl | simp at hd

/-- C4: in a run in which `Begin` succeeded, `Rollback` is called exactly
once, as the last call before the handler returns, on every exit (failing
`Prepare`, failing `Exec`, failing `Commit`, and after a successful
`Commit`); in a run in which `Begin` was not reached or failed, `Rollback`
is never called. -/
theorem rollback_once_iff_begun (w : World) (req : Request) :
    (Call.Begin none ∈ (pathCredsCreateRead w req).calls →
      rollbackCount (pathCredsCreateRead w req).calls = 1 ∧
      (pathCredsCreateRead w req).calls.getLast? = some (Call.Rollback w.Rollback)) ∧
    (Call.Begin none ∉ (pathCredsCreateRead w req).calls →
      rollbackCount (pathCredsCreateRead w req).calls = 0) := by
  have h := runCase w req
  generalize pathCredsCreateRead w req = R at h
  cases h with
  | roleErr e hRole => simp [rollbackCount, Call.isRollback]
  | unknownRole hRole => simp [rollbackCount, Call.isRollback]
  | leaseErr role e hRole hLease => simp [rollbackCount, Call.isRollback]
  | userErr role stored e hRole hLease hUser => simp [rollbackCount, Call.isRollback]
  | passErr role stored userUUID e hRole hLease hUser hPass =>
    simp [rollbackCount, Call.isRollback]
  | dbErr role stored userUUID password e hRole hLease hUser hPass hDB =>
    simp [rollbackCount, Call.isRollback]
  | beginErr role stored userUUID password e hRole hLease hUser hPass hDB hBegin =>
    simp [rollbackCount, Call.isRollback]
  | prepareErr role stored userUUID password pre q post e hRole hLease hUser hPass hDB hBegin
      hStmts =>
    simp only [rollbackCount_append, rollbackCount_okCalls]
    simp [opened, rollbackCount, Call.isRollback, List.getLast?_cons]
  | execErr role stored userUUID password pre q post e hRole hLease hUser hPass hDB hBegin
      hStmts =>
    simp only [rollbackCount_append, rollbackCount_okCalls]
    simp [opened, rollbackCount, Call.isRollback, List.getLast?_cons]
  | commitErr role stored userUUID password e hRole hLease hUser hPass hDB hBegin hCommit =>
    simp only [rollbackCount_append, rollbackCount_okCalls]
    simp [opened, rollbackCount, Call.isRollback, List.getLast?_cons]
  | issued role stored userUUID password hRole hLease hUser hPass hDB hBegin hCommit =>
    simp only [rollbackCount_append, rollbackCount_okCalls]
    simp [opened, rollbackCount, Call.isRollback, List.getLast?_cons]

theorem prepare_err_not_mem_okCalls (i : Nat) (qs : List GoString) (recv : Handle) (k : Nat)
    (q : GoString) (e : GoError) : Call.Prepare recv k q (some e) ∉ okCalls i qs := by
  intro h
  have := okCalls_err i qs _ h
  simp [Call.err] at this

theorem exec_err_not_mem_okCalls (i : Nat) (qs : List GoString) (recv : Handle) (k : Nat)
    (q : GoString) (e : GoError) : Call.Exec recv k q (some e) ∉ okCalls i qs := by
  intro h
  have := okCalls_err i qs _ h
  simp [Call.err] at this

theorem getElem?_length_append_cons (pre : List GoString) (q : GoString) (post : List GoString) :
    (pre ++ q :: post)[pre.length]? = some q := by
  induction pre with
  | nil => simp
  | cons a pre ih => simpa using ih

theorem take_length_append_cons (pre : List GoString) (q : GoString) (post : List GoString) :
    (pre ++ q :: post).take pre.length = pre := by
  simp

theorem take_length_succ_append_cons (pre : List GoString) (q : GoString)
    (post : List GoString) : (pre ++ q :: post).take (pre.length + 1) = pre ++ [q] := by
  induction pre with
  | nil => rfl
  | cons a pre ih => simpa using ih

/-- C5: for the role found and the two tokens generated, the statements
prepared and the statements executed are prefixes of the rendered list, in
its order; they are the whole list when `Begin` succeeded and no statement
call failed, and otherwise they stop at the first statement whose `Prepare`
or `Exec` fails. -/
theorem statements_are_prefix_of_rendered (w : World) (req : Request) (role : roleEntry)
    (userUUID password : GoString) (hRole : w.Role req.name = .ok (some role))
    (hUser : w.GenerateUUID 0 = .ok userUUID) (hPass : w.GenerateUUID 1 = .ok password) :
    preparedQueries (pathCredsCreateRead w req).calls <+:
      renderedStatements w role (username req userUUID) password ∧
    executedQueries (pathCredsCreateRead w req).calls <+:
      preparedQueries (pathCredsCreateRead w req).calls ∧
    ((Call.Begin none ∈ (pathCredsCreateRead w req).calls ∧
        ∀ c ∈ (pathCredsCreateRead w req).calls, c.isStatement = true → c.err = none) →
      preparedQueries (pathCredsCreateRead w req).calls =
        renderedStatements w role (username req userUUID) password ∧
      executedQueries (pathCredsCreateRead w req).calls =
        renderedStatements w role (username req userUUID) password) ∧
    (∀ recv i q e, Call.Prepare recv i q (some e) ∈ (pathCredsCreateRead w req).calls →
      (renderedStatements w role (username req userUUID) password)[i]? = some q ∧
      preparedQueries (pathCredsCreateRead w req).calls =
        (renderedStatements w role (username req userUUID) password).take (i + 1) ∧
      executedQueries (pathCredsCreateRead w req).calls =
        (renderedStatements w role (username req userUUID) password).take i) ∧
    (∀ recv i q e, Call.Exec recv i q (some e) ∈ (pathCredsCreateRead w req).calls →
      (renderedStatements w role (username req userUUID) password)[i]? = some q ∧
      preparedQueries (pathCredsCreateRead w req).calls =
        (renderedStatements w role (username req userUUID) password).take (i + 1) ∧
      executedQueries (pathCredsCreateRead w req).calls =
        (renderedStatements w role (username req userUUID) password).take (i + 1)) := by
  have h := runCase w req
  generalize pathCredsCreateRead w req = R at h
  cases h with
  | roleErr e hRole0 => simp [hRole] at hRole0
  | unknownRole hRole0 => simp [hRole] at hRole0
  | leaseErr role0 e hRole0 hLease => simp [preparedQueries, executedQueries]
  | userErr role0 stored e hRole0 hLease hUser0 => simp [hUser] at hUser0
  | passErr role0 stored userUUID0 e hRole0 hLease hUser0 hPass0 => simp [hPass] at hPass0
  | dbErr role0 stored userUUID0 password0 e hRole0 hLease hUser0 hPass0 hDB =>
    simp [preparedQueries, executedQueries]
  | beginErr role0 stored userUUID0 password0 e hRole0 hLease hUser0 hPass0 hDB hBegin =>
    simp [preparedQueries, executedQueries]
  | prepareErr role0 stored userUUID0 password0 pre q0 post e0 hRole0 hLease hUser0 hPass0 hDB
      hBegin hStmts =>
    have e1 : role = role0 := by simpa [hRole] using hRole0
    have e2 : userUUID = userUUID0 := by simpa [hUser] using hUser0
    have e3 : password = password0 := by simpa [hPass] using hPass0
    subst e1 e2 e3
    have hp : preparedQueries (opened req.name ++
        (okCalls 0 pre ++ [Call.Prepare Handle.db (0 + pre.length) q0 (some e0)]) ++
        [Call.Rollback w.Rollback]) = pre ++ [q0] := by
      simp only [preparedQueries_append, preparedQueries_okCalls]
      simp [opened, preparedQueries]
    have hx : executedQueries (opened req.name ++
        (okCalls 0 pre ++ [Call.Prepare Handle.db (0 + pre.length) q0 (some e0)]) ++
        [Call.Rollback w.Rollback]) = pre := by
      simp only [executedQueries_append, executedQueries_okCalls]
      simp [opened, executedQueries]
    simp only [hp, hx, hStmts]
    refine ⟨by simp, by simp, ?_, ?_, ?_⟩
    · rintro ⟨-, hall⟩
      have := hall (Call.Prepare Handle.db (0 + pre.length) q0 (some e0)) (by simp) rfl
      simp [Call.err] at this
    · intro recv i q e hmem
      simp only [List.mem_append, List.mem_singleton, List.mem_cons, opened, List.not_mem_nil,
        or_false, false_or, reduceCtorEq, prepare_err_not_mem_okCalls, Call.Prepare.injEq] at hmem
      obtain ⟨-, hi, rfl, -⟩ := hmem
      have hi2 : i = pre.length := by omega
      subst hi2
      exact ⟨getElem?_length_append_cons pre q post,
        (take_length_succ_append_cons pre q post).symm,
        (take_length_append_cons pre q post).symm⟩
    · intro recv i q e hmem
      simp [opened, exec_err_not_mem_okCalls] at hmem
  | execErr role0 stored userUUID0 password0 pre q0 post e0 hRole0 hLease hUser0 hPass0 hDB
      hBegin hStmts =>
    have e1 : role = role0 := by simpa [hRole] using hRole0
    have e2 : userUUID = userUUID0 := by simpa [hUser] using hUser0
    have e3 : password = password0 := by simpa [hPass] using hPass0
    subst e1 e2 e3
    have hp : preparedQueries (opened req.name ++
        (okCalls 0 pre ++
          [Call.Prepare Handle.db (0 + pre.length) q0 none,
           Call.Exec Handle.db (0 + pre.length) q0 (some e0)]) ++
        [Call.Rollback w.Rollback]) = pre ++ [q0] := by
      simp only [preparedQueries_append, preparedQueries_okCalls]
      simp [opened, preparedQueries]
    have hx : executedQueries (opened req.name ++
        (okCalls 0 pre ++
          [Call.Prepare Handle.db (0 + pre.length) q0 none,
           Call.Exec Handle.db (0 + pre.length) q0 (some e0)]) ++
        [Call.Rollback w.Rollback]) = pre ++ [q0] := by
      simp only [executedQueries_append, executedQueries_okCalls]
      simp [opened, executedQueries]
    simp only [hp, hx, hStmts]
    refine ⟨by simp, by simp, ?_, ?_, ?_⟩
    · rintro ⟨-, hall⟩
      have := hall (Call.Exec Handle.db (0 + pre.length) q0 (some e0)) (by simp) rfl
      simp [Call.err] at this
    · intro recv i q e hmem
      simp [opened, prepare_err_not_mem_okCalls] at hmem
    · intro recv i q e hmem
      simp only [List.mem_append, List.mem_singleton, List.mem_cons, opened, List.not_mem_nil,
        or_false, false_or, reduceCtorEq, exec_err_not_mem_okCalls, Call.Exec.injEq] at hmem
      obtain ⟨-, hi, rfl, -⟩ := hmem
      have hi2 : i = pre.length := by omega
      subst hi2
      exact ⟨getElem?_length_append_cons pre q post,
        (take_length_succ_append_cons pre q post).symm,
        (take_length_succ_append_cons pre q post).symm⟩
  | commitErr role0 stored userUUID0 password0 e0 hRole0 hLease hUser0 hPass0 hDB hBegin
      hCommit =>
    have e1 : role = role0 := by simpa [hRole] using hRole0
    have e2 : userUUID = userUUID0 := by simpa [hUser] using hUser0
    have e3 : password = password0 := by simpa [hPass] using hPass0
    subst e1 e2 e3
    have hp : preparedQueries (opened req.name ++
        okCalls 0 (renderedStatements w role (username req userUUID) password) ++
        [Call.Commit (some e0), Call.Rollback w.Rollback]) = renderedStatements w role (username req userUUID) password := by
      simp only [preparedQueries_append, preparedQueries_okCalls]
      simp [opened, preparedQueries]
    have hx : executedQueries (opened req.name ++
        okCalls 0 (renderedStatements w role (username req userUUID) password) ++
        [Call.Commit (some e0), Call.Rollback w.Rollback]) = renderedStatements w role (username req userUUID) password := by
      simp only [executedQueries_append, executedQueries_okCalls]
      simp [opened, executedQueries]
    simp only [hp, hx]
    refine ⟨List.prefix_refl _, List.prefix_refl _, by simp, ?_, ?_⟩
    · intro recv i q e hmem
      simp [opened, prepare_err_not_mem_okCalls] at hmem
    · intro recv i q e hmem
      simp [opened, exec_err_not_mem_okCalls] at hmem
  | issued role0 stored userUUID0 password0 hRole0 hLease hUser0 hPass0 hDB hBegin hCommit =>
    have e1 : role = role0 := by simpa [hRole] using hRole0
    have e2 : userUUID = userUUID0 := by simpa [hUser] using hUser0
    have e3 : password = password0 := by simpa [hPass] using hPass0
    subst e1 e2 e3
    have hp : preparedQueries (opened req.name ++
        okCalls 0 (renderedStatements w role (username req userUUID) password) ++
        [Call.Commit none, Call.Rollback w.Rollback]) = renderedStatements w role (username req userUUID) password := by
      simp only [preparedQueries_append, preparedQueries_okCalls]
      simp [opened, preparedQueries]
    have hx : executedQueries (opened req.name ++
        okCalls 0 (renderedStatements w role (username req userUUID) password) ++
        [Call.Commit none, Call.Rollback w.Rollback]) = renderedStatements w role (username req userUUID) password := by
      simp only [executedQueries_append, executedQueries_okCalls]
      simp [opened, executedQueries]
    simp only [hp, hx]
    refine ⟨List.prefix_refl _, List.prefix_refl _, by simp, ?_, ?_⟩
    · intro recv i q e hmem
      simp [opened, prepare_err_not_mem_okCalls] at hmem
    · intro recv i q e hmem
      simp [opened, exec_err_not_mem_okCalls] at hmem

/-- C2: when the role lookup succeeds and finds no role, the handler returns
the error response `unknown role: <name>` with a nil error, and the role
lookup is the only collaborator call of the run. -/
theorem unknown_role_only_looks_up (w : World) (req : Request)
    (hRole : w.Role req.name = .ok none) :
    pathCredsCreateRead w req =
      ⟨some (Response.ErrorResponse (utf8 "unknown role: " ++ req.name)), none,
        [Call.Role req.name none]⟩ := by
  simp only [pathCredsCreateRead, hRole]

/-- The sample world has no role `nobody`: the run is the error response and one call. -/
theorem unknown_role_only_looks_up_sample :
    sampleWorld.Role (utf8 "nobody") = .ok none ∧
    pathCredsCreateRead sampleWorld ⟨utf8 "nobody", utf8 "token-bob"⟩ =
      ⟨some (Response.ErrorResponse (utf8 "unknown role: " ++ utf8 "nobody")), none,
        [Call.Role (utf8 "nobody") none]⟩ :=
  ⟨rfl, unknown_role_only_looks_up sampleWorld ⟨utf8 "nobody", utf8 "token-bob"⟩ rfl⟩

/-- C6: the TTL of a returned Secret is the stored lease duration when a
lease configuration is stored, and one hour when none is stored. -/
theorem ttl_is_stored_lease_or_one_hour (w : World) (req : Request) (data internal : GoMap)
    (ttl : Duration)
    (h : (pathCredsCreateRead w req).resp = some (Response.SecretResponse data internal ttl)) :
    (∀ l : configLease, w.Lease = .ok (some l) → ttl = l.Lease) ∧
    (w.Lease = .ok none → ttl = 3600 * 1000000000) := by
  have hc := runCase w req
  generalize pathCredsCreateRead w req = R at hc h
  cases hc with
  | issued role stored userUUID password hRole hLease hUser hPass hDB hBegin hCommit =>
    simp only [Option.some.injEq, Response.SecretResponse.injEq] at h
    obtain ⟨-, -, rfl⟩ := h
    constructor
    · intro l hl
      have : stored = some l := by simpa [hLease] using hl
      subst this
      rfl
    · intro hl
      have : stored = none := by simpa [hLease] using hl
      subst this
      rfl
  | _ => simp at h

/-- A stored lease of 30 minutes gives a TTL of 30 minutes; no stored lease gives one hour. -/
theorem ttl_is_stored_lease_or_one_hour_sample :
    ((pathCredsCreateRead sampleWorld sampleRequest).resp =
        some (Response.SecretResponse sampleData sampleInternal (30 * Minute)) ∧
      sampleWorld.Lease = .ok (some ⟨30 * Minute⟩) ∧
      (30 * Minute : Duration) = (⟨30 * Minute⟩ : configLease).Lease) ∧
    ((pathCredsCreateRead noLeaseWorld sampleRequest).resp =
        some (Response.SecretResponse sampleData sampleInternal (60 * Minute)) ∧
      noLeaseWorld.Lease = .ok none ∧ (60 * Minute : Duration) = 3600 * 1000000000) :=
  ⟨⟨by decide, rfl,
      (ttl_is_stored_lease_or_one_hour sampleWorld sampleRequest sampleData sampleInternal
        (30 * Minute) (by decide)).1 ⟨30 * Minute⟩ rfl⟩,
    by decide, rfl,
    (ttl_is_stored_lease_or_one_hour noLeaseWorld sampleRequest sampleData sampleInternal
      (60 * Minute) (by decide)).2 rfl⟩

/-- C8, as amended: the Secret returned carries exactly the data map
`username, password`; the internal map the handler passes to
`Secret(SecretCredsType).Response` is exactly `username`, with the same
username, and the internal data of the Secret is what `Response` builds
from that map; every statement prepared and executed in that run was
rendered by `Query` with these two values for `name` and `password`. -/
theorem secret_holds_the_substituted_pair (w : World) (req : Request) (data internal : GoMap)
    (ttl : Duration)
    (h : (pathCredsCreateRead w req).resp = some (Response.SecretResponse data internal ttl)) :
    ∃ role user pass,
      w.Role req.name = .ok (some role) ∧
      data = [(utf8 "username", user), (utf8 "password", pass)] ∧
      internal = w.InternalData [(utf8 "username", user)] ∧
      preparedQueries (pathCredsCreateRead w req).calls =
        (w.SplitSQL (utf8 "USE [" ++ w.defaultDb ++ utf8 "]; " ++ role.SQL)).map
          (fun q => w.Query q [(utf8 "name", user), (utf8 "password", pass)]) ∧
      executedQueries (succeeded (pathCredsCreateRead w req).calls) =
        preparedQueries (pathCredsCreateRead w req).calls := by
  have hc := runCase w req
  generalize pathCredsCreateRead w req = R at hc h
  cases hc with
  | issued role stored userUUID password hRole hLease hUser hPass hDB hBegin hCommit =>
    simp only [Option.some.injEq, Response.SecretResponse.injEq] at h
    obtain ⟨rfl, rfl, -⟩ := h
    refine ⟨role, username req userUUID, password, hRole, rfl, rfl, ?_, ?_⟩
    · simp only [preparedQueries_append, preparedQueries_okCalls]
      simp [opened, preparedQueries, renderedStatements]
    · simp only [preparedQueries_append, preparedQueries_okCalls, succeeded_append,
        succeeded_okCalls, executedQueries_append, executedQueries_okCalls]
      cases hRb : w.Rollback <;>
        simp [opened, preparedQueries, executedQueries, succeeded, Call.err]
  | _ => simp at h

/-- The sample run returns a Secret, and its pair is the one the statements were rendered with. -/
theorem secret_holds_the_substituted_pair_sample :
    (pathCredsCreateRead sampleWorld sampleRequest).resp =
        some (Response.SecretResponse sampleData sampleInternal (30 * Minute)) ∧
    ∃ role user pass,
      sampleWorld.Role sampleRequest.name = .ok (some role) ∧
      sampleData = [(utf8 "username", user), (utf8 "password", pass)] ∧
      sampleInternal = sampleWorld.InternalData [(utf8 "username", user)] ∧
      preparedQueries (pathCredsCreateRead sampleWorld sampleRequest).calls =
        (sampleWorld.SplitSQL (utf8 "USE [" ++ sampleWorld.defaultDb ++ utf8 "]; " ++ role.SQL)).map
          (fun q => sampleWorld.Query q [(utf8 "name", user), (utf8 "password", pass)]) ∧
      executedQueries (succeeded (pathCredsCreateRead sampleWorld sampleRequest).calls) =
        preparedQueries (pathCredsCreateRead sampleWorld sampleRequest).calls :=
  ⟨by decide,
    secret_holds_the_substituted_pair sampleWorld sampleRequest sampleData sampleInternal
      (30 * Minute) (by decide)⟩

/-- C8 as stated fails: in the sample run the handler passes the internal
map `username` to `Response`, and the internal data of the Secret returned
holds the entry `secret_type` besides `username`, so it is not exactly the
map `username`. -/
theorem secret_internal_holds_more_than_username :
    (pathCredsCreateRead sampleWorld sampleRequest).resp =
      some (Response.SecretResponse
        [(utf8 "username", utf8 "token-alic-6ba7b810-9dad"), (utf8 "password", utf8 "9e107d9d-372b")]
        [(utf8 "username", utf8 "token-alic-6ba7b810-9dad"), (utf8 "secret_type", utf8 "creds")]
        (30 * Minute)) ∧
    ¬ ∃ user ttl,
      (pathCredsCreateRead sampleWorld sampleRequest).resp =
        some (Response.SecretResponse
          [(utf8 "username", user), (utf8 "password", utf8 "9e107d9d-372b")]
          [(utf8 "username", user)] ttl) := by
  refine ⟨by decide, ?_⟩
  rintro ⟨user, ttl, h⟩
  have hr : (pathCredsCreateRead sampleWorld sampleRequest).resp =
      some (Response.SecretResponse sampleData sampleInternal (30 * Minute)) := by decide
  rw [hr] at h
  simp [sampleInternal] at h

/-- In a run that returns a Secret, every call but the deferred `Rollback` succeeded. -/
theorem issued_calls_ok (name : GoString) (qs : List GoString) (r : Option GoError) :
    ∀ c ∈ opened name ++ okCalls 0 qs ++ [Call.Commit none, Call.Rollback r],
      c.isRollback = false → c.err = none := by
  intro c hc hr
  simp only [List.mem_append, List.mem_singleton, List.mem_cons, opened, List.not_mem_nil,
    or_false] at hc
  rcases hc with ((hc | hc | hc | hc | hc | hc) | hc) | hc | hc
  all_goals first
    | exact okCalls_err 0 _ c hc
    | (subst hc; first | rfl | simp [Call.isRollback] at hr)

/-- The error of a failed call, the deferred `Rollback` apart, is what the handler returns. -/
theorem failed_call_error_is_returned (w : World) (req : Request) :
    ∀ c ∈ (pathCredsCreateRead w req).calls, c.isRollback = false → ∀ e, c.err = some e →
      (pathCredsCreateRead w req).resp = none ∧ (pathCredsCreateRead w req).err = some e := by
  have h := runCase w req
  generalize pathCredsCreateRead w req = R at h
  cases h with
  | roleErr e hRole => simp [Call.err, Call.isRollback]
  | unknownRole hRole => simp [Call.err, Call.isRollback]
  | leaseErr role e hRole hLease => simp [Call.err, Call.isRollback]
  | userErr role stored e hRole hLease hUser => simp [Call.err, Call.isRollback]
  | passErr role stored userUUID e hRole hLease hUser hPass => simp [Call.err, Call.isRollback]
  | dbErr role stored userUUID password e hRole hLease hUser hPass hDB =>
    simp [Call.err, Call.isRollback]
  | beginErr role stored userUUID password e hRole hLease hUser hPass hDB hBegin =>
    simp [Call.err, Call.isRollback]
  | prepareErr role stored userUUID password pre q post e hRole hLease hUser hPass hDB hBegin
      hStmts =>
    intro c hc hr e1 he
    simp only [List.mem_append, List.mem_singleton, List.mem_cons, opened, List.not_mem_nil,
      or_false] at hc
    rcases hc with ((hc | hc | hc | hc | hc | hc) | hc | hc) | hc
    all_goals first
      | exact absurd (okCalls_err 0 pre c hc) (by simp [he])
      | (subst hc; simp [Call.err, Call.isRollback] at he hr ⊢; try exact he)
  | execErr role stored userUUID password pre q post e hRole hLease hUser hPass hDB hBegin
      hStmts =>
    intro c hc hr e1 he
    simp only [List.mem_append, List.mem_singleton, List.mem_cons, opened, List.not_mem_nil,
      or_false] at hc
    rcases hc with ((hc | hc | hc | hc | hc | hc) | hc | hc | hc) | hc
    all_goals first
      | exact absurd (okCalls_err 0 pre c hc) (by simp [he])
      | (subst hc; simp [Call.err, Call.isRollback] at he hr ⊢; try exact he)
  | commitErr role stored userUUID password e hRole hLease hUser hPass hDB hBegin hCommit =>
    intro c hc hr e1 he
    simp only [List.mem_append, List.mem_singleton, List.mem_cons, opened, List.not_mem_nil,
      or_false] at hc
    rcases hc with ((hc | hc | hc | hc | hc | hc) | hc) | hc | hc
    all_goals first
      | exact absurd (okCalls_err 0 _ c hc) (by simp [he])
      | (subst hc; simp [Call.err, Call.isRollback] at he hr ⊢; try exact he)
  | issued role stored userUUID password hRole hLease hUser hPass hDB hBegin hCommit =>
    intro c hc hr e1 he
    rw [issued_calls_ok req.name _ _ c hc hr] at he
    simp at he

/-- C9: an error returned by the role lookup, the lease lookup, either token
generation, the database handle acquisition, `Begin`, a `Prepare`, an `Exec`
or `Commit` is returned by the handler unchanged with a nil response; and
a Secret is returned only when every one of these calls, `Commit` included,
succeeded. -/
theorem no_failure_is_swallowed (w : World) (req : Request) :
    (∀ c ∈ (pathCredsCreateRead w req).calls, c.isRollback = false → ∀ e, c.err = some e →
      (pathCredsCreateRead w req).resp = none ∧ (pathCredsCreateRead w req).err = some e) ∧
    (∀ data internal ttl,
      (pathCredsCreateRead w req).resp = some (Response.SecretResponse data internal ttl) →
      (pathCredsCreateRead w req).err = none ∧
      Call.Commit none ∈ (pathCredsCreateRead w req).calls ∧
      ∀ c ∈ (pathCredsCreateRead w req).calls, c.isRollback = false → c.err = none) := by
  refine ⟨failed_call_error_is_returned w req, ?_⟩
  intro data internal ttl h
  have hc := runCase w req
  generalize pathCredsCreateRead w req = R at hc h
  cases hc with
  | issued role stored userUUID password hRole hLease hUser hPass hDB hBegin hCommit =>
    exact ⟨rfl, by simp, issued_calls_ok req.name _ _⟩
  | _ => simp at h

/-- C10, as amended: when a statement fails to prepare or execute, the
handler returns a nil response and exactly the error that `Prepare` or `Exec`
returned, whatever the position of the statement; the handler adds nothing
to it. -/
theorem statement_error_is_returned_as_is (w : World) (req : Request) (recv : Handle) (i : Nat)
    (q : GoString) (e : GoError)
    (h : Call.Prepare recv i q (some e) ∈ (pathCredsCreateRead w req).calls ∨
      Call.Exec recv i q (some e) ∈ (pathCredsCreateRead w req).calls) :
    (pathCredsCreateRead w req).resp = none ∧ (pathCredsCreateRead w req).err = some e := by
  rcases h with h | h
  · exact failed_call_error_is_returned w req _ h rfl e rfl
  · exact failed_call_error_is_returned w req _ h rfl e rfl

/-- In the sample run whose third statement fails to execute, the driver error is returned. -/
theorem statement_error_is_returned_as_is_sample :
    Call.Exec Handle.db 2 (utf8 "GRANT SELECT TO [token-alic-6ba7b810-9dad]") (some stmtError) ∈
      (pathCredsCreateRead (execFailsAt 2) sampleRequest).calls ∧
    (pathCredsCreateRead (execFailsAt 2) sampleRequest).resp = none ∧
    (pathCredsCreateRead (execFailsAt 2) sampleRequest).err = some stmtError :=
  ⟨by decide,
    statement_error_is_returned_as_is (execFailsAt 2) sampleRequest Handle.db 2
      (utf8 "GRANT SELECT TO [token-alic-6ba7b810-9dad]") stmtError (Or.inr (by decide))⟩

/-- C10 as stated fails: executing the statement at position 1 fails in one
run and executing the statement at position 2 fails in another, with the
same driver error, and the handler returns the same response and the same
error in both runs. -/
theorem returned_error_has_no_position :
    Call.Exec Handle.db 1
        (utf8 "CREATE LOGIN [token-alic-6ba7b810-9dad] WITH PASSWORD = '9e107d9d-372b'")
        (some stmtError) ∈ (pathCredsCreateRead (execFailsAt 1) sampleRequest).calls ∧
    Call.Exec Handle.db 2 (utf8 "GRANT SELECT TO [token-alic-6ba7b810-9dad]") (some stmtError) ∈
      (pathCredsCreateRead (execFailsAt 2) sampleRequest).calls ∧
    (pathCredsCreateRead (execFailsAt 1) sampleRequest).err =
      (pathCredsCreateRead (execFailsAt 2) sampleRequest).err ∧
    (pathCredsCreateRead (execFailsAt 1) sampleRequest).resp =
      (pathCredsCreateRead (execFailsAt 2) sampleRequest).resp := by
  decide

theorem after_append (d : Database) (a b : List Call) :
    d.after (a ++ b) = (d.after a).after b := by
  simp [Database.after]

theorem after_okCalls (d : Database) (i : Nat) (qs : List GoString) :
    d.after (okCalls i qs) = { d with applied := d.applied ++ qs } := by
  induction qs generalizing d i with
  | nil => simp [okCalls, Database.after]
  | cons q qs ih =>
    have h := ih { d with applied := d.applied ++ [q] } (i + 1)
    simp only [Database.after] at h
    simp [okCalls, Database.after, h, Database.step]

theorem after_opened (name : GoString) :
    Database.empty.after (opened name) = ⟨[], [], true⟩ := by
  simp [opened, Database.after, Database.step, Database.empty]

/-- In every run, the statements that have taken effect in the database when
the handler returns are the statements whose `Exec` succeeded, whether or
not the run committed. -/
theorem applied_is_what_executed (w : World) (req : Request) :
    (Database.empty.after (pathCredsCreateRead w req).calls).applied =
      executedQueries (succeeded (pathCredsCreateRead w req).calls) := by
  have h := runCase w req
  generalize pathCredsCreateRead w req = R at h
  cases h with
  | roleErr e hRole => rfl
  | unknownRole hRole => rfl
  | leaseErr role e hRole hLease => rfl
  | userErr role stored e hRole hLease hUser => rfl
  | passErr role stored userUUID e hRole hLease hUser hPass => rfl
  | dbErr role stored userUUID password e hRole hLease hUser hPass hDB => rfl
  | beginErr role stored userUUID password e hRole hLease hUser hPass hDB hBegin => rfl
  | prepareErr role stored userUUID password pre q post e hRole hLease hUser hPass hDB hBegin
      hStmts =>
    simp only [after_append, after_opened, after_okCalls, succeeded_append, succeeded_okCalls,
      executedQueries_append, executedQueries_okCalls]
    cases hRb : w.Rollback <;>
      simp [Database.after, Database.step, opened, succeeded, executedQueries, Call.err]
  | execErr role stored userUUID password pre q post e hRole hLease hUser hPass hDB hBegin
      hStmts =>
    simp only [after_append, after_opened, after_okCalls, succeeded_append, succeeded_okCalls,
      executedQueries_append, executedQueries_okCalls]
    cases hRb : w.Rollback <;>
      simp [Database.after, Database.step, opened, succeeded, executedQueries, Call.err]
  | commitErr role stored userUUID password e hRole hLease hUser hPass hDB hBegin hCommit =>
    simp only [after_append, after_opened, after_okCalls, succeeded_append, succeeded_okCalls,
      executedQueries_append, executedQueries_okCalls]
    cases hRb : w.Rollback <;>
      simp [Database.after, Database.step, opened, succeeded, executedQueries, Call.err]
  | issued role stored userUUID password hRole hLease hUser hPass hDB hBegin hCommit =>
    simp only [after_append, after_opened, after_okCalls, succeeded_append, succeeded_okCalls,
      executedQueries_append, executedQueries_okCalls]
    cases hRb : w.Rollback <;>
      simp [Database.after, Database.step, opened, succeeded, executedQueries, Call.err]

/-- A statement prepared on the transaction and executed is discarded by
`Rollback`: the database model does undo what runs inside the transaction. -/
theorem tx_statement_is_rolled_back (q : GoString) (r : Option GoError) :
    (Database.empty.after
      [Call.Begin none, Call.Prepare Handle.tx 0 q none, Call.Exec Handle.tx 0 q none,
       Call.Rollback r]).applied = [] := by
  simp [Database.after, Database.step, Database.empty]

/-- A statement prepared on the transaction takes effect when the transaction commits. -/
theorem tx_statement_is_committed (q : GoString) (r : Option GoError) :
    (Database.empty.after
      [Call.Begin none, Call.Prepare Handle.tx 0 q none, Call.Exec Handle.tx 0 q none,
       Call.Commit none, Call.Rollback r]).applied = [q] := by
  simp [Database.after, Database.step, Database.empty]

/-- C1 fails on the code: in the run whose third statement fails to execute,
the handler returns the error, never commits and rolls the transaction back,
and the two statements executed before the failing one have taken effect in
the database, because they were prepared on `db` and ran outside the
transaction. -/
theorem failed_run_leaves_statements_applied :
    (pathCredsCreateRead (execFailsAt 2) sampleRequest).resp = none ∧
    (pathCredsCreateRead (execFailsAt 2) sampleRequest).err = some stmtError ∧
    commitIssued (pathCredsCreateRead (execFailsAt 2) sampleRequest).calls = false ∧
    rollbackCount (pathCredsCreateRead (execFailsAt 2) sampleRequest).calls = 1 ∧
    (Database.empty.after (pathCredsCreateRead (execFailsAt 2) sampleRequest).calls).applied =
      [utf8 "USE [master]",
       utf8 "CREATE LOGIN [token-alic-6ba7b810-9dad] WITH PASSWORD = '9e107d9d-372b'"] := by
  decide

theorem utf8EncodeChar_ascii (c : Char) (h : c.val ≤ 127) :
    String.utf8EncodeChar c = [c.val.toUInt8] := by
  simp [String.utf8EncodeChar, h]

theorem utf8_ascii (cs : List Char) (h : ∀ c ∈ cs, c.val ≤ 127) :
    cs.flatMap String.utf8EncodeChar = cs.map fun c => c.val.toUInt8 := by
  induction cs with
  | nil => rfl
  | cons c cs ih =>
    have hc := utf8EncodeChar_ascii c (h c (List.mem_cons_self c cs))
    have ht := ih fun d hd => h d (List.mem_cons_of_mem c hd)
    simp [List.flatMap_cons, hc, ht]

theorem displayName_eq_take (req : Request) : displayName req = req.DisplayName.take 10 := by
  unfold displayName
  split
  · rfl
  · rw [List.take_of_length_le (by omega)]

/-- C7, as amended: the username is the truncated hint, a dash and the first
token, where the hint is cut by bytes: it is kept whole when it has at most
10 bytes and cut to its first 10 bytes otherwise.  For a hint of ASCII
characters this is the whole hint when it has at most 10 characters and its
first 10 characters otherwise.  The Secret returned carries this username. -/
theorem username_is_first_ten_bytes_dash_token (w : World) (req : Request) (token : GoString)
    (hTok : w.GenerateUUID 0 = .ok token) :
    (∀ data internal ttl,
      (pathCredsCreateRead w req).resp = some (Response.SecretResponse data internal ttl) →
      (utf8 "username", username req token) ∈ data) ∧
    username req token = req.DisplayName.take 10 ++ utf8 "-" ++ token ∧
    (req.DisplayName.length ≤ 10 → req.DisplayName.take 10 = req.DisplayName) ∧
    (10 < req.DisplayName.length → (req.DisplayName.take 10).length = 10) ∧
    (∀ hint : String, (∀ c ∈ hint.toList, c.val ≤ 127) → req.DisplayName = utf8 hint →
      username req token = utf8 (firstChars 10 hint) ++ utf8 "-" ++ token) := by
  refine ⟨?_, ?_, ?_, ?_, ?_⟩
  · intro data internal ttl h
    have hc := runCase w req
    generalize pathCredsCreateRead w req = R at hc h
    cases hc with
    | issued role stored userUUID password hRole hLease hUser hPass hDB hBegin hCommit =>
      have e2 : token = userUUID := by simpa [hTok] using hUser
      subst e2
      simp only [Option.some.injEq, Response.SecretResponse.injEq] at h
      obtain ⟨rfl, -, -⟩ := h
      simp
    | _ => simp at h
  · simp only [username, displayName_eq_take]
  · intro h
    exact List.take_of_length_le h
  · intro h
    simp only [List.length_take]
    omega
  · intro hint hascii hd
    have hfirst : ∀ c ∈ (firstChars 10 hint).toList, c.val ≤ 127 := by
      intro c hc
      exact hascii c (List.mem_of_mem_take hc)
    simp only [username, displayName_eq_take, hd, utf8]
    rw [utf8_ascii _ hascii, utf8_ascii _ hfirst]
    simp [firstChars, List.map_take]

/-- The ASCII hint `token-alice-admin` is cut to its first 10 characters, `token-alic`. -/
theorem username_is_first_ten_bytes_dash_token_sample :
    sampleWorld.GenerateUUID 0 = .ok (utf8 "6ba7b810-9dad") ∧
    sampleRequest.DisplayName = utf8 "token-alice-admin" ∧
    firstChars 10 "token-alice-admin" = "token-alic" ∧
    username sampleRequest (utf8 "6ba7b810-9dad") =
      utf8 (firstChars 10 "token-alice-admin") ++ utf8 "-" ++ utf8 "6ba7b810-9dad" :=
  ⟨rfl, rfl, by decide,
    (username_is_first_ten_bytes_dash_token sampleWorld sampleRequest (utf8 "6ba7b810-9dad")
      rfl).2.2.2.2 "token-alice-admin" (by decide) rfl⟩

/-- C7 as stated fails: the hint `zoë-müller` has 10 characters, yet the
username of the Secret returned keeps only `zoë-müll`, the first 10 bytes of
the hint, and is not the whole hint followed by a dash and the token. -/
theorem username_cuts_bytes_not_characters :
    "zoë-müller".length = 10 ∧
    (pathCredsCreateRead sampleWorld ⟨utf8 "readonly", utf8 "zoë-müller"⟩).resp =
      some (Response.SecretResponse
        [(utf8 "username", utf8 "zoë-müll-6ba7b810-9dad"), (utf8 "password", utf8 "9e107d9d-372b")]
        [(utf8 "username", utf8 "zoë-müll-6ba7b810-9dad"), (utf8 "secret_type", utf8 "creds")]
        (30 * Minute)) ∧
    username ⟨utf8 "readonly", utf8 "zoë-müller"⟩ (utf8 "6ba7b810-9dad") ≠
      utf8 "zoë-müller" ++ utf8 "-" ++ utf8 "6ba7b810-9dad" := by
  decide

/-- In the sample run whose second statement fails to execute, two of the three rendered
statements are prepared and executed, and the third is never reached. -/
theorem statements_are_prefix_of_rendered_sample :
    (execFailsAt 1).Role sampleRequest.name = .ok (some sampleRole) ∧
    (execFailsAt 1).GenerateUUID 0 = .ok (utf8 "6ba7b810-9dad") ∧
    (execFailsAt 1).GenerateUUID 1 = .ok (utf8 "9e107d9d-372b") ∧
    renderedStatements (execFailsAt 1) sampleRole
        (username sampleRequest (utf8 "6ba7b810-9dad")) (utf8 "9e107d9d-372b") =
      sampleStatements ∧
    Call.Exec Handle.db 1
        (utf8 "CREATE LOGIN [token-alic-6ba7b810-9dad] WITH PASSWORD = '9e107d9d-372b'")
        (some stmtError) ∈ (pathCredsCreateRead (execFailsAt 1) sampleRequest).calls ∧
    preparedQueries (pathCredsCreateRead (execFailsAt 1) sampleRequest).calls =
      (renderedStatements (execFailsAt 1) sampleRole
        (username sampleRequest (utf8 "6ba7b810-9dad")) (utf8 "9e107d9d-372b")).take 2 ∧
    executedQueries (pathCredsCreateRead (execFailsAt 1) sampleRequest).calls =
      (renderedStatements (execFailsAt 1) sampleRole
        (username sampleRequest (utf8 "6ba7b810-9dad")) (utf8 "9e107d9d-372b")).take 2 :=
  ⟨rfl, rfl, rfl, by decide, by decide,
    ((statements_are_prefix_of_rendered (execFailsAt 1) sampleRequest sampleRole
      (utf8 "6ba7b810-9dad") (utf8 "9e107d9d-372b") rfl rfl rfl).2.2.2.2 Handle.db 1
      (utf8 "CREATE LOGIN [token-alic-6ba7b810-9dad] WITH PASSWORD = '9e107d9d-372b'")
      stmtError (by decide)).2⟩

end Mssql
